import Mathlib

/-!
# Verification of the application-services sync/FxA core

A shallow embedding, in Lean 4, of the security- and sync-critical code of
the repository:

* `src/fxa-rust-client/src/http_client/mod.rs` — namespaced HKDF key
  derivation (`kw`, `derive_hkdf_sha256_key`), the key-bundle unwrap
  (`keys`), OAuth audience derivation (`get_oauth_audience`) and the
  remote-error envelope decoding of `make_request`;
* `src/sync15-adapter/src/sync.rs` — the generic `synchronize` cycle over a
  pluggable `Store`.

Bytes are modelled as `Nat`s below 256 and byte strings as `List Nat`;
machine words are `Nat`s reduced modulo `2 ^ 32` wherever Rust's `u32`
arithmetic wraps.  The external crypto crates the code calls (`sha2`,
`hmac`, `hkdf`) implement the pinned standard algorithms FIPS 180-4,
RFC 2104 and RFC 5869; those algorithms are implemented here executably and
pinned, by theorems below, to the standards' published test vectors,
padding-boundary lengths included.  Fallible Rust code
becomes `Except`; the effectful `synchronize` becomes a function from an
environment of collaborator outcomes to a result plus a trace of the calls
it performed.
-/

/-! ## SHA-256 (FIPS 180-4), executable over `Nat` -/

/-- Truncation to a 32-bit word: `u32` wrap-around. -/
def w32 (n : Nat) : Nat := n % 4294967296

/-- Right rotation of a 32-bit word by `n` places. -/
def rotr32 (n x : Nat) : Nat := w32 ((x >>> n) ||| (x <<< (32 - n)))

/-- FIPS 180-4 `Σ₀`. -/
def bSig0 (x : Nat) : Nat := rotr32 2 x ^^^ rotr32 13 x ^^^ rotr32 22 x

/-- FIPS 180-4 `Σ₁`. -/
def bSig1 (x : Nat) : Nat := rotr32 6 x ^^^ rotr32 11 x ^^^ rotr32 25 x

/-- FIPS 180-4 `σ₀`. -/
def sSig0 (x : Nat) : Nat := rotr32 7 x ^^^ rotr32 18 x ^^^ (x >>> 3)

/-- FIPS 180-4 `σ₁`. -/
def sSig1 (x : Nat) : Nat := rotr32 17 x ^^^ rotr32 19 x ^^^ (x >>> 10)

/-- FIPS 180-4 `Ch` (the complement taken by xor against the 32-bit mask). -/
def chW (x y z : Nat) : Nat := (x &&& y) ^^^ ((x ^^^ 4294967295) &&& z)

/-- FIPS 180-4 `Maj`. -/
def majW (x y z : Nat) : Nat := (x &&& y) ^^^ (x &&& z) ^^^ (y &&& z)

/-- The 64 SHA-256 round constants. -/
def shaK : List Nat :=
  [1116352408, 1899447441, 3049323471, 3921009573, 961987163, 1508970993,
   2453635748, 2870763221, 3624381080, 310598401, 607225278, 1426881987,
   1925078388, 2162078206, 2614888103, 3248222580, 3835390401, 4022224774,
   264347078, 604807628, 770255983, 1249150122, 1555081692, 1996064986,
   2554220882, 2821834349, 2952996808, 3210313671, 3336571891, 3584528711,
   113926993, 338241895, 666307205, 773529912, 1294757372, 1396182291,
   1695183700, 1986661051, 2177026350, 2456956037, 2730485921, 2820302411,
   3259730800, 3345764771, 3516065817, 3600352804, 4094571909, 275423344,
   430227734, 506948616, 659060556, 883997877, 958139571, 1322822218,
   1537002063, 1747873779, 1955562222, 2024104815, 2227730452, 2361852424,
   2428436474, 2756734187, 3204031479, 3329325298]

/-- The eight working variables of the SHA-256 compression loop. -/
structure Sha256State where
  a : Nat
  b : Nat
  c : Nat
  d : Nat
  e : Nat
  f : Nat
  g : Nat
  h : Nat

/-- The SHA-256 initial hash value. -/
def shaInit : Sha256State :=
  ⟨1779033703, 3144134277, 1013904242, 2773480762, 1359893119, 2600822924, 528734635, 1541459225⟩

/-- One round of the compression function, consuming one `(constant, word)`
pair of the schedule. -/
def shaRound (st : Sha256State) (kp : Nat × Nat) : Sha256State :=
  let t1 := w32 (st.h + bSig1 st.e + chW st.e st.f st.g + kp.1 + kp.2)
  let t2 := w32 (bSig0 st.a + majW st.a st.b st.c)
  ⟨w32 (t1 + t2), st.a, st.b, st.c, w32 (st.d + t1), st.e, st.f, st.g⟩

/-- Message-schedule extension over the reversed schedule (most recent word
first), so each step reads `w[t-2]`, `w[t-7]`, `w[t-15]`, `w[t-16]` at the
small indices 1, 6, 14, 15. -/
def extendScheduleRev : List Nat → Nat → List Nat
  | rws, 0 => rws
  | rws, k + 1 =>
    let w := w32 (sSig1 (rws.getD 1 0) + rws.getD 6 0 +
                  sSig0 (rws.getD 14 0) + rws.getD 15 0)
    extendScheduleRev (w :: rws) k

/-- The 64-word message schedule of a 16-word block. -/
def extendSchedule (ws : List Nat) (k : Nat) : List Nat :=
  (extendScheduleRev ws.reverse k).reverse

/-- Compress one 16-word block into the running state. -/
def compressBlock (st : Sha256State) (block : List Nat) : Sha256State :=
  let ws := extendSchedule block 48
  let f := (shaK.zip ws).foldl shaRound st
  ⟨w32 (st.a + f.a), w32 (st.b + f.b), w32 (st.c + f.c), w32 (st.d + f.d),
   w32 (st.e + f.e), w32 (st.f + f.f), w32 (st.g + f.g), w32 (st.h + f.h)⟩

/-- The `k` big-endian bytes of `v` (most significant first). -/
def bytesBE : Nat → Nat → List Nat
  | 0, _ => []
  | k + 1, v => bytesBE k (v / 256) ++ [v % 256]

/-- Pack bytes into big-endian 32-bit words, four at a time. -/
def toWords : List Nat → List Nat
  | b0 :: b1 :: b2 :: b3 :: rest =>
    (b0 * 16777216 + b1 * 65536 + b2 * 256 + b3) :: toWords rest
  | _ => []

/-- FIPS 180-4 padding: append `0x80`, then the smallest number of zero
bytes making the length ≡ 56 (mod 64) — `(119 - r) % 64` for a message of
residue `r`, which stays in 0..63 for every residue without truncating —
then the bit length as eight big-endian bytes. -/
def padMessage (msg : List Nat) : List Nat :=
  msg ++ [0x80] ++ List.replicate ((119 - msg.length % 64) % 64) 0 ++
  bytesBE 8 (msg.length * 8)

/-- Split a word list into 16-word blocks; fuel-structured so the kernel can
evaluate it. -/
def chunk16F : Nat → List Nat → List (List Nat)
  | 0, _ => []
  | _, [] => []
  | fuel + 1, x :: xs => ((x :: xs).take 16) :: chunk16F fuel ((x :: xs).drop 16)

/-- Split a word list into its 16-word blocks. -/
def chunk16 (l : List Nat) : List (List Nat) := chunk16F l.length l

/-- SHA-256 of a byte string, as its 32 digest bytes. -/
def sha256 (msg : List Nat) : List Nat :=
  let st := (chunk16 (toWords (padMessage msg))).foldl compressBlock shaInit
  bytesBE 4 st.a ++ bytesBE 4 st.b ++ bytesBE 4 st.c ++ bytesBE 4 st.d ++
  bytesBE 4 st.e ++ bytesBE 4 st.f ++ bytesBE 4 st.g ++ bytesBE 4 st.h

/-! ## HMAC-SHA256 (RFC 2104) and HKDF-SHA256 (RFC 5869) -/

/-- HMAC-SHA256: hash the key down if longer than the 64-byte block, pad it
with zeros, then the nested inner/outer hash with the `0x36`/`0x5c` pads. -/
def hmacSha256 (key msg : List Nat) : List Nat :=
  let k0 := if 64 < key.length then sha256 key else key
  let kpad := k0 ++ List.replicate (64 - k0.length) 0
  sha256 ((kpad.map (fun b => b ^^^ 0x5c)) ++
          sha256 ((kpad.map (fun b => b ^^^ 0x36)) ++ msg))

/-- The first `n` HKDF output blocks: `T(i) = HMAC(prk, T(i-1) ‖ info ‖ i)`,
returned as (last block, concatenation of all blocks).  The counter byte is
reduced mod 256 exactly as Rust's `as u8` cast does. -/
def hkdfExpandAux (prk info : List Nat) : Nat → List Nat × List Nat
  | 0 => ([], [])
  | i + 1 =>
    let p := hkdfExpandAux prk info i
    let ti := hmacSha256 prk (p.1 ++ info ++ [(i + 1) % 256])
    (ti, p.2 ++ ti)

/-- RFC 5869 expand: enough blocks to cover `len`, truncated to `len`. -/
def hkdfExpandBytes (prk info : List Nat) (len : Nat) : List Nat :=
  (hkdfExpandAux prk info ((len + 31) / 32)).2.take len

/-! ### Output lengths of the primitives -/

theorem bytesBE_length (k v : Nat) : (bytesBE k v).length = k := by
  induction k generalizing v with
  | zero => rfl
  | succ k ih => simp [bytesBE, ih]

theorem sha256_length (msg : List Nat) : (sha256 msg).length = 32 := by
  simp [sha256, bytesBE_length]

theorem hmacSha256_length (key msg : List Nat) : (hmacSha256 key msg).length = 32 := by
  simp [hmacSha256, sha256_length]

theorem hkdfExpandAux_acc_length (prk info : List Nat) (n : Nat) :
    (hkdfExpandAux prk info n).2.length = 32 * n := by
  induction n with
  | zero => rfl
  | succ n ih => simp [hkdfExpandAux, ih, hmacSha256_length]; ring

theorem hkdfExpandBytes_length (prk info : List Nat) (len : Nat) :
    (hkdfExpandBytes prk info len).length = len := by
  simp only [hkdfExpandBytes, List.length_take, hkdfExpandAux_acc_length]
  have h := Nat.div_add_mod (len + 31) 32
  have h2 : (len + 31) % 32 < 32 := Nat.mod_lt _ (by norm_num)
  omega

/-! ### Standard test vectors

The implementations above are pinned to the published vectors: FIPS 180-4
(the empty message, `"abc"`, and the 56-byte two-block message, which
exercises the padding boundary where the zero run wraps past a block),
two further padding-boundary lengths checked against the reference
implementation, RFC 4231 HMAC case 1, and RFC 5869 HKDF case 1. -/

set_option maxRecDepth 100000 in
theorem sha256_vector_empty : sha256 [] =
    [227, 176, 196, 66, 152, 252, 28, 20, 154, 251, 244, 200, 153, 111, 185, 36,
   39, 174, 65, 228, 100, 155, 147, 76, 164, 149, 153, 27, 120, 82, 184, 85] := by decide

set_option maxRecDepth 100000 in
theorem sha256_vector_abc : sha256 [97, 98, 99] =
    [186, 120, 22, 191, 143, 1, 207, 234, 65, 65, 64, 222, 93, 174, 34, 35,
   176, 3, 97, 163, 150, 23, 122, 156, 180, 16, 255, 97, 242, 0, 21, 173] := by decide

set_option maxRecDepth 100000 in
theorem sha256_vector_two_blocks :
    sha256 [97, 98, 99, 100, 98, 99, 100, 101, 99, 100, 101, 102, 100, 101, 102, 103,
   101, 102, 103, 104, 102, 103, 104, 105, 103, 104, 105, 106, 104, 105, 106, 107,
   105, 106, 107, 108, 106, 107, 108, 109, 107, 108, 109, 110, 108, 109, 110, 111,
   109, 110, 111, 112, 110, 111, 112, 113] =
    [36, 141, 106, 97, 210, 6, 56, 184, 229, 192, 38, 147, 12, 62, 96, 57,
   163, 60, 228, 89, 100, 255, 33, 103, 246, 236, 237, 212, 25, 219, 6, 193] := by decide

set_option maxRecDepth 100000 in
theorem sha256_vector_len60 : sha256 (List.range 60) =
    [13, 221, 226, 142, 64, 131, 142, 246, 249, 133, 62, 136, 127, 89, 125, 106,
   219, 95, 64, 235, 53, 213, 118, 60, 82, 225, 230, 77, 139, 163, 191, 255] := by decide

set_option maxRecDepth 100000 in
theorem sha256_vector_len63 : sha256 (List.range 63) =
    [41, 175, 38, 134, 253, 83, 55, 74, 54, 176, 132, 102, 148, 204, 52, 33,
   119, 228, 40, 209, 100, 117, 21, 240, 120, 120, 77, 105, 205, 185, 228, 136] := by decide

set_option maxRecDepth 100000 in
theorem hmacSha256_vector_rfc4231 :
    hmacSha256 (List.replicate 20 11) [72, 105, 32, 84, 104, 101, 114, 101] =
    [176, 52, 76, 97, 216, 219, 56, 83, 92, 168, 175, 206, 175, 11, 241, 43,
   136, 29, 194, 0, 201, 131, 61, 167, 38, 233, 55, 108, 46, 50, 207, 247] := by decide

set_option maxRecDepth 100000 in
theorem hkdf_vector_rfc5869 :
    hkdfExpandBytes (hmacSha256 (List.range 13) (List.replicate 22 11))
      [240, 241, 242, 243, 244, 245, 246, 247, 248, 249] 42 =
    [60, 178, 95, 37, 250, 172, 213, 122, 144, 67, 79, 100, 208, 54, 47, 42,
   45, 45, 10, 144, 207, 26, 90, 76, 93, 176, 45, 86, 236, 196, 197, 191,
   52, 0, 114, 8, 213, 184, 135, 24, 88, 101] := by decide

/-! ## UTF-8 byte strings

Rust strings are UTF-8; `format!(...).as_bytes()` in `kw`/`kwe` yields the
UTF-8 encoding of the formatted string.  The encoder below is the standard
UTF-8 scheme, written with division so the arithmetic reasoning stays
linear. -/

/-- UTF-8 encoding of one scalar value (1 to 4 bytes by range). -/
def utf8EncodeCharNat (c : Nat) : List Nat :=
  if c < 0x80 then [c]
  else if c < 0x800 then [0xc0 + c / 64, 0x80 + c % 64]
  else if c < 0x10000 then [0xe0 + c / 4096, 0x80 + c / 64 % 64, 0x80 + c % 64]
  else [0xf0 + c / 262144, 0x80 + c / 4096 % 64, 0x80 + c / 64 % 64, 0x80 + c % 64]

/-- UTF-8 encoding of a character list. -/
def utf8ListBytes (l : List Char) : List Nat :=
  l.foldr (fun ch acc => utf8EncodeCharNat ch.toNat ++ acc) []

/-- The UTF-8 bytes of a string — Rust's `str::as_bytes`. -/
def utf8Bytes (s : String) : List Nat := utf8ListBytes s.data

theorem utf8EncodeCharNat_ne_nil (c : Nat) : utf8EncodeCharNat c ≠ [] := by
  unfold utf8EncodeCharNat
  split_ifs <;> simp

/-- A UTF-8 encoding followed by a remainder determines the leading scalar
and the remainder: the lead byte's range fixes the sequence length, and the
payload bits recover the scalar. -/
theorem utf8EncodeCharNat_cons_inj (c1 c2 : Nat) (r1 r2 : List Nat)
    (hb1 : c1 < 1114112) (hb2 : c2 < 1114112)
    (h : utf8EncodeCharNat c1 ++ r1 = utf8EncodeCharNat c2 ++ r2) :
    c1 = c2 ∧ r1 = r2 := by
  unfold utf8EncodeCharNat at h
  split_ifs at h <;> simp only [List.cons_append, List.nil_append, List.cons.injEq] at h <;>
    first
      | (exact ⟨by omega, h.2⟩)
      | (exact ⟨by omega, h.2.2⟩)
      | (exact ⟨by omega, h.2.2.2⟩)
      | (exact ⟨by omega, h.2.2.2.2⟩)
      | (exact absurd h.1 (by omega))

theorem char_toNat_injective (a b : Char) (h : a.toNat = b.toNat) : a = b :=
  StrictMono.injective (f := Char.toNat) (fun _ _ hlt => hlt) h

theorem char_toNat_lt (c : Char) : c.toNat < 1114112 := by
  rcases c.valid with h | ⟨h1, h2⟩
  · exact Nat.lt_trans h (by norm_num)
  · exact h2

theorem utf8ListBytes_inj (l1 : List Char) : ∀ l2 : List Char,
    utf8ListBytes l1 = utf8ListBytes l2 → l1 = l2 := by
  induction l1 with
  | nil =>
    intro l2 h
    cases l2 with
    | nil => rfl
    | cons c cs =>
      exfalso
      have hnil : utf8EncodeCharNat c.toNat ++ utf8ListBytes cs = [] := h.symm
      rcases List.append_eq_nil.mp hnil with ⟨h1, _⟩
      exact utf8EncodeCharNat_ne_nil _ h1
  | cons c cs ih =>
    intro l2 h
    cases l2 with
    | nil =>
      exfalso
      have hnil : utf8EncodeCharNat c.toNat ++ utf8ListBytes cs = [] := h
      rcases List.append_eq_nil.mp hnil with ⟨h1, _⟩
      exact utf8EncodeCharNat_ne_nil _ h1
    | cons d ds =>
      have h2 : utf8EncodeCharNat c.toNat ++ utf8ListBytes cs =
          utf8EncodeCharNat d.toNat ++ utf8ListBytes ds := h
      obtain ⟨hc, hr⟩ := utf8EncodeCharNat_cons_inj _ _ _ _
        (char_toNat_lt c) (char_toNat_lt d) h2
      exact List.cons_eq_cons.mpr ⟨char_toNat_injective _ _ hc, ih _ hr⟩

/-- UTF-8 encoding is injective on strings. -/
theorem utf8Bytes_inj (s1 s2 : String) (h : utf8Bytes s1 = utf8Bytes s2) : s1 = s2 := by
  cases s1; cases s2
  exact congrArg String.mk (utf8ListBytes_inj _ _ h)

/-! ## FxAClient key derivation (http_client/mod.rs) -/

/-- `FxAClient::kw`: the namespaced derivation context,
`format!("identity.mozilla.com/picl/v1/{}", name).as_bytes().to_vec()`. -/
def kw (name : String) : List Nat :=
  utf8Bytes ("identity.mozilla.com/picl/v1/" ++ name)

/-- `FxAClient::kwe`: the email-scoped variant,
`format!("identity.mozilla.com/picl/v1/{}:{}", name, email)`. -/
def kwe (name email : String) : List Nat :=
  utf8Bytes ("identity.mozilla.com/picl/v1/" ++ name ++ ":" ++ email)

/-- `HKDF_SALT`: the all-zero 32-byte constant. -/
def HKDF_SALT : List Nat := List.replicate 32 0

/-- `KEY_LENGTH = 32`. -/
def KEY_LENGTH : Nat := 32

/-- `FxAClient::derive_hkdf_sha256_key`: HKDF-SHA256 extract
(`Hkdf::<Sha256>::extract(&xts, &ikm)`, an HMAC of the ikm keyed by the
salt) then expand to `len` bytes. -/
def derive_hkdf_sha256_key (ikm xts info : List Nat) (len : Nat) : List Nat :=
  hkdfExpandBytes (hmacSha256 xts ikm) info len

theorem derive_hkdf_sha256_key_length (ikm xts info : List Nat) (len : Nat) :
    (derive_hkdf_sha256_key ikm xts info len).length = len :=
  hkdfExpandBytes_length _ _ _

/-- `FxAClient::derive_sync_key`: 64 bytes from `kB` with the empty salt
under the `"oldsync"` context. -/
def derive_sync_key (kb : List Nat) : List Nat :=
  derive_hkdf_sha256_key kb [] (kw "oldsync") (KEY_LENGTH * 2)

/-- `FxAClient::compute_client_state`: the first 16 bytes of `SHA256(kB)`
(hex encoding left to the caller side; the bytes carry the content). -/
def compute_client_state (kb : List Nat) : List Nat :=
  (sha256 kb).take 16

/-- Modelled from the spec: the `hkdf` crate's `expand` (its source is not
under `src/`) "fails only if `length` exceeds the PRF's safe output bound
(reported, not silently truncated)" — the RFC 5869 bound of 255 blocks of
32 bytes. -/
inductive HkdfError where
  | invalidLength
deriving DecidableEq

/-- Modelled from the spec: `deriveKey(secret, salt, context, length)` with
the crate's reported failure when `length` exceeds `255 * 32`; within the
bound it is exactly `derive_hkdf_sha256_key`. -/
def derive_key_checked (ikm xts info : List Nat) (len : Nat) :
    Except HkdfError (List Nat) :=
  if len ≤ 255 * 32 then .ok (derive_hkdf_sha256_key ikm xts info len)
  else .error .invalidLength

/-! ## The key-bundle unwrap (`FxAClient::keys`)

`keys` performs one HAWK-signed round trip and then unwraps the returned
bundle.  The network fetch and the hex decode are external collaborators;
the function below is the computation of `keys` from the key-fetch token
and the already-decoded bundle bytes, line for line from the source. -/

/-- The error kinds the `keys` path can produce, one per `bail!`/`?` site:
`jsonError` for a missing `"bundle"` field, `malformedBundle` for
"Data is not of the expected size.", `macKeyError` for
"Could not create MAC key.", `integrityCheckFailed` for "Bad HMAC!", and
`xorLengthMismatch` from `Xorable::xored_with`.  All are distinct from the
transport error kind of `make_request`. -/
inductive KeysError where
  | jsonError
  | malformedBundle
  | macKeyError
  | integrityCheckFailed
  | xorLengthMismatch
deriving DecidableEq

deriving instance DecidableEq for Except

/-- `Hmac::<Sha256>::new_varkey`: accepts keys of every length (RFC 2104),
so it never fails; the match in `keys` keeps the source's error branch. -/
def hmacNewVarkey (_key : List Nat) : Except KeysError Unit := .ok ()

/-- Modelled from the spec: `util::Xorable::xored_with` (its source is not
under `src/`) — "bitwise unmasking" of equal-length byte slices; a length
mismatch is an error. -/
def xored_with (a b : List Nat) : Except KeysError (List Nat) :=
  if a.length = b.length then .ok (List.zipWith (fun x y => x ^^^ y) a b)
  else .error .xorLengthMismatch

/-- `FxAClient::keys`, from the key-fetch token and the decoded bundle:
derive the 96-byte stream under `kw "keyFetchToken"` (the last third is the
key-request key), reject a bundle that is not exactly `3 * KEY_LENGTH`
bytes, split it into ciphertext and tag, derive the 96-byte stream under
`kw "account/keys"`, verify the HMAC of the ciphertext against the tag, and
return bytes 32..64 of the xor-unmasked ciphertext as `wrap_kb`. -/
def keys (key_fetch_token data : List Nat) : Except KeysError (List Nat) :=
  let key := derive_hkdf_sha256_key key_fetch_token HKDF_SALT (kw "keyFetchToken") (KEY_LENGTH * 3)
  let key_request_key := (key.drop (KEY_LENGTH * 2)).take KEY_LENGTH
  if data.length ≠ 3 * KEY_LENGTH then .error .malformedBundle
  else
    let ciphertext := data.take (KEY_LENGTH * 2)
    let mac_code := (data.drop (KEY_LENGTH * 2)).take KEY_LENGTH
    let bytes := derive_hkdf_sha256_key key_request_key HKDF_SALT (kw "account/keys") (KEY_LENGTH * 3)
    let hmac_key := bytes.take KEY_LENGTH
    let xor_key := (bytes.drop KEY_LENGTH).take (KEY_LENGTH * 2)
    match hmacNewVarkey hmac_key with
    | .error _ => .error .macKeyError
    | .ok _ =>
      if hmacSha256 hmac_key ciphertext ≠ mac_code then .error .integrityCheckFailed
      else
        match xored_with ciphertext xor_key with
        | .error e => .error e
        | .ok xored_bytes => .ok ((xored_bytes.drop KEY_LENGTH).take KEY_LENGTH)

/-- The HMAC key `keys` derives for a token: the first third of the
96-byte stream derived from the key-request key under `kw "account/keys"`. -/
def keysHmacKey (key_fetch_token : List Nat) : List Nat :=
  let key := derive_hkdf_sha256_key key_fetch_token HKDF_SALT (kw "keyFetchToken") (KEY_LENGTH * 3)
  let key_request_key := (key.drop (KEY_LENGTH * 2)).take KEY_LENGTH
  (derive_hkdf_sha256_key key_request_key HKDF_SALT (kw "account/keys") (KEY_LENGTH * 3)).take KEY_LENGTH

/-- The specification's `wrap_kB` formula, stated in the spec's own terms:
the key-request key is the last 32 bytes of the 96-byte HKDF-SHA256 stream
derived from the key-fetch token under context
`"identity.mozilla.com/picl/v1/keyFetchToken"`; `hmacKey` and `xorKey` are
bytes 0..32 and 32..96 of the 96-byte stream derived from the key-request
key under `"identity.mozilla.com/picl/v1/account/keys"`; `wrap_kB` is
bytes 32..64 of the ciphertext (the bundle's first 64 bytes) xored with
`xorKey`. -/
def wrapKbSpec (key_fetch_token data : List Nat) : List Nat :=
  let stream1 := derive_hkdf_sha256_key key_fetch_token HKDF_SALT
    (utf8Bytes "identity.mozilla.com/picl/v1/keyFetchToken") 96
  let key_request_key := stream1.drop 64
  let stream2 := derive_hkdf_sha256_key key_request_key HKDF_SALT
    (utf8Bytes "identity.mozilla.com/picl/v1/account/keys") 96
  let xor_key := stream2.drop 32
  let ciphertext := data.take 64
  ((List.zipWith (fun x y => x ^^^ y) ciphertext xor_key).drop 32).take 32

/-! ## OAuth audience derivation (`FxAClient::get_oauth_audience`)

`get_oauth_audience` works on an already-parsed `url::Url`.  The `url`
crate's parser stores no port when the URL writes none, and `Url::port()`
reports `None` when the written port is the scheme's known default
(ftp 21, gopher 70, http 80, https 443, ws 80, wss 443) — the documented
contract of the external crate. -/

/-- A parsed URL, as far as `get_oauth_audience` reads one: the scheme, the
host string if the URL has a host, and the port as written in the URL text
if one is written. -/
structure ParsedUrl where
  scheme : String
  hostStr : Option String
  writtenPort : Option Nat

/-- The `url` crate's known default ports. -/
def defaultPort (scheme : String) : Option Nat :=
  if scheme = "ftp" then some 21
  else if scheme = "gopher" then some 70
  else if scheme = "http" then some 80
  else if scheme = "https" then some 443
  else if scheme = "ws" then some 80
  else if scheme = "wss" then some 443
  else none

/-- `Url::port()`: the written port, except that a scheme's default port
reads back as `None`. -/
def ParsedUrl.port (u : ParsedUrl) : Option Nat :=
  match u.writtenPort with
  | none => none
  | some p => if defaultPort u.scheme = some p then none else some p

/-- The error of `get_oauth_audience` when the OAuth base URL has no host
(`chain_err(|| "This URL doesn't have a host!")`). -/
inductive AudienceError where
  | noHost
deriving DecidableEq

/-- `FxAClient::get_oauth_audience`: `scheme://host:port` when `Url::port()`
is `Some`, `scheme://host` when it is `None`. -/
def get_oauth_audience (u : ParsedUrl) : Except AudienceError String :=
  match u.hostStr with
  | none => .error .noHost
  | some host =>
    match u.port with
    | some port => .ok (u.scheme ++ "://" ++ host ++ ":" ++ Nat.repr port)
    | none => .ok (u.scheme ++ "://" ++ host)

/-! ## Remote-error envelope decoding (`FxAClient::make_request`) -/

/-- JSON values as `serde_json::Value` models them; numbers are kept as
integers, the only numeric shape `as_u64` can succeed on. -/
inductive Json where
  | null
  | bool (b : Bool)
  | num (n : Int)
  | str (s : String)
  | arr (xs : List Json)
  | obj (fields : List (String × Json))

/-- `serde_json`'s `Value::Index` for a string key: member lookup on an
object, `Null` on a missing member or any non-object. -/
def Json.getField : Json → String → Json
  | .obj fields, k =>
    match fields.find? (fun p => p.1 == k) with
    | some p => p.2
    | none => .null
  | _, _ => .null

/-- `Value::as_u64`: the number when it is a `u64`, else `None`. -/
def Json.as_u64 : Json → Option Nat
  | .num n => if 0 ≤ n ∧ n < 18446744073709551616 then some n.toNat else none
  | _ => none

/-- `Value::as_str`: the string when it is one, else `None`. -/
def Json.as_str : Json → Option String
  | .str s => some s
  | _ => none

/-- What `make_request` sees of a transport response: the status code and
the body, parsed as JSON when it is valid JSON. -/
structure HttpResponse where
  status : Nat
  body : Option Json

/-- `StatusCode::is_success()`: the 2xx range. -/
def statusIsSuccess (s : Nat) : Bool := 200 ≤ s && s ≤ 299

/-- The failure side of `make_request`: `ErrorKind::RemoteError` with its
five envelope fields, or the raw transport error
(`resp.error_for_status().unwrap_err()`) when the body is not JSON. -/
inductive RequestError where
  | remoteError (code errno : Nat) (error message info : String)
  | transportError (status : Nat)
deriving DecidableEq

/-- The non-success branch of `FxAClient::make_request`: `none` on a
success status (the body is handed to the response deserializer instead);
otherwise the remote-error envelope decoded with `unwrap_or` defaults, or
the transport error when the body is not valid JSON. -/
def make_request_failure (resp : HttpResponse) : Option RequestError :=
  if statusIsSuccess resp.status then none
  else some (match resp.body with
    | some j => .remoteError
        ((j.getField "code").as_u64.getD 0)
        ((j.getField "errno").as_u64.getD 0)
        ((j.getField "error").as_str.getD "")
        ((j.getField "message").as_str.getD "")
        ((j.getField "info").as_str.getD "")
    | none => .transportError resp.status)

/-! ## The synchronize cycle (`sync15-adapter/src/sync.rs`)

`synchronize` drives one fetch → apply → assert → retarget → upload →
finish cycle.  Its collaborators — `IncomingChangeset::fetch`, the store's
`apply_incoming` and `sync_finished`, and
`CollectionUpdate::new_from_changeset(..)?.upload()?` — are supplied as an
environment of outcomes; the function returns the cycle's result together
with the trace of collaborator calls it performed, in order.  The changeset
and timestamp types live outside `src/` (`changeset.rs`, `util.rs`), so
they are modelled from the spec: a `ServerTimestamp` is an opaque marker
with equality, here `Nat`; an incoming changeset is records plus the
watermark at fetch time; an outgoing changeset is records plus a watermark
field; an upload result is the server's new watermark plus the succeeded
and failed record ids.  Records stay a type parameter — the engine never
inspects them. -/

/-- An incoming changeset: the remote records plus the collection's
timestamp at fetch time. -/
structure IncomingChangeset (R : Type) where
  changes : List R
  timestamp : Nat
deriving DecidableEq

/-- An outgoing changeset: the records to upload plus the watermark field
the store echoes and the engine retargets. -/
structure OutgoingChangeset (R : Type) where
  changes : List R
  timestamp : Nat
deriving DecidableEq

/-- The upload outcome: the server's post-upload timestamp and the
per-record partition into succeeded and failed ids. -/
structure UploadInfo where
  modified_timestamp : Nat
  successful_ids : List String
  failed_ids : List String
deriving DecidableEq

/-- One cycle's collaborator outcomes: what the fetch returns, what the
store's `apply_incoming` returns on each input, what the upload returns on
each outgoing changeset, what the store's `sync_finished` returns, and the
`From<error::Error>` conversion into the store's error type.  `F` is the
adapter's `error::Error`, `E` the store's associated error type. -/
structure SyncEnv (R F E : Type) where
  fetch : Except F (IncomingChangeset R)
  apply_incoming : IncomingChangeset R → Except E (OutgoingChangeset R)
  upload : OutgoingChangeset R → Bool → Except F UploadInfo
  sync_finished : Nat → List String → Except E Unit
  lift : F → E

/-- A collaborator call `synchronize` performed, with its arguments. -/
inductive SyncEvent (R : Type) where
  | fetch
  | apply (inbound : IncomingChangeset R)
  | upload (outbound : OutgoingChangeset R) (fully_atomic : Bool)
  | finish (new_timestamp : Nat) (records_synced : List String)
deriving DecidableEq

/-- The cycle's result: success, an error returned to the caller, or the
`assert_eq!` panic (a programming-error fault, not a returned error) with
the two unequal timestamps. -/
inductive SyncResult (E : Type) where
  | ok
  | fail (e : E)
  | assertFailed (outgoing_timestamp input_timestamp : Nat)
deriving DecidableEq

/-- `synchronize`, line for line: fetch the incoming changes (`?`), apply
them through the store (`?`), `assert_eq!` the echoed watermark against the
input, retarget the outgoing changeset's timestamp to the fetched remote
timestamp, upload (`?` twice, merged into one outcome), and report
completion to the store (`?`). -/
def synchronize {R F E : Type} (env : SyncEnv R F E) (timestamp : Nat)
    (fully_atomic : Bool) : SyncResult E × List (SyncEvent R) :=
  match env.fetch with
  | .error e => (.fail (env.lift e), [.fetch])
  | .ok incoming_changes =>
    let last_changed_remote := incoming_changes.timestamp
    match env.apply_incoming incoming_changes with
    | .error e => (.fail e, [.fetch, .apply incoming_changes])
    | .ok outgoing =>
      if outgoing.timestamp = timestamp then
        let retargeted : OutgoingChangeset R :=
          { outgoing with timestamp := last_changed_remote }
        match env.upload retargeted fully_atomic with
        | .error e => (.fail (env.lift e),
            [.fetch, .apply incoming_changes, .upload retargeted fully_atomic])
        | .ok upload_info =>
          match env.sync_finished upload_info.modified_timestamp upload_info.successful_ids with
          | .error e => (.fail e,
              [.fetch, .apply incoming_changes, .upload retargeted fully_atomic,
               .finish upload_info.modified_timestamp upload_info.successful_ids])
          | .ok _ => (.ok,
              [.fetch, .apply incoming_changes, .upload retargeted fully_atomic,
               .finish upload_info.modified_timestamp upload_info.successful_ids])
      else (.assertFailed outgoing.timestamp timestamp,
            [.fetch, .apply incoming_changes])

/-- Whether an event is an upload call. -/
def SyncEvent.isUpload {R : Type} : SyncEvent R → Bool
  | .upload _ _ => true
  | _ => false

/-- Whether an event is a `sync_finished` call. -/
def SyncEvent.isFinish {R : Type} : SyncEvent R → Bool
  | .finish _ _ => true
  | _ => false

/-- Whether an event is an `apply_incoming` call. -/
def SyncEvent.isApply {R : Type} : SyncEvent R → Bool
  | .apply _ => true
  | _ => false

/-! ## Claims about the synchronize cycle -/

/-- Claim C1: for every store and input watermark, if the outgoing
changeset returned by `apply_incoming` carries a timestamp different from
the watermark passed into `synchronize`, the cycle ends in the
`assert_eq!` fault — fatal and distinct from a returned error — and the
trace holds no upload call and no `sync_finished` call. -/
theorem c1_watermark_mismatch_aborts {R F E : Type} (env : SyncEnv R F E)
    (ts : Nat) (fa : Bool) (inc : IncomingChangeset R) (out : OutgoingChangeset R)
    (hf : env.fetch = .ok inc) (ha : env.apply_incoming inc = .ok out)
    (hne : out.timestamp ≠ ts) :
    (synchronize env ts fa).1 = .assertFailed out.timestamp ts ∧
    ∀ ev ∈ (synchronize env ts fa).2, ev.isUpload = false ∧ ev.isFinish = false := by
  simp only [synchronize, hf, ha, if_neg hne]
  refine ⟨by trivial, ?_⟩
  intro ev hev
  rcases List.mem_cons.mp hev with h | h
  · subst h; exact ⟨rfl, rfl⟩
  · rcases List.mem_singleton.mp h with h2
    subst h2; exact ⟨rfl, rfl⟩

/-- A concrete cycle for claim C1: the store echoes watermark 7 against
input watermark 3. -/
def envC1 : SyncEnv Nat Unit Unit :=
  ⟨.ok ⟨[], 5⟩, fun _ => .ok ⟨[], 7⟩, fun _ _ => .ok ⟨9, [], []⟩,
   fun _ _ => .ok (), fun _ => ()⟩

theorem c1_watermark_mismatch_aborts_witness :
    (synchronize envC1 3 false).1 = .assertFailed 7 3 :=
  (c1_watermark_mismatch_aborts envC1 3 false ⟨[], 5⟩ ⟨[], 7⟩ rfl rfl
    (by decide)).1

/-- Claim C5: `synchronize` short-circuits on the first failing step.  A
fetch failure returns that error lifted, with no `apply_incoming`, no
upload and no `sync_finished` in the trace; an `apply_incoming` failure
returns the store's error with no upload and no `sync_finished`; an upload
failure (on the retargeted changeset) returns the lifted error with no
`sync_finished`, leaving the store at its pre-cycle watermark. -/
theorem c5_short_circuit {R F E : Type} (env : SyncEnv R F E) (ts : Nat) (fa : Bool) :
    (∀ f, env.fetch = .error f →
      (synchronize env ts fa).1 = .fail (env.lift f) ∧
      ∀ ev ∈ (synchronize env ts fa).2,
        ev.isApply = false ∧ ev.isUpload = false ∧ ev.isFinish = false) ∧
    (∀ inc e, env.fetch = .ok inc → env.apply_incoming inc = .error e →
      (synchronize env ts fa).1 = .fail e ∧
      ∀ ev ∈ (synchronize env ts fa).2, ev.isUpload = false ∧ ev.isFinish = false) ∧
    (∀ inc out f, env.fetch = .ok inc → env.apply_incoming inc = .ok out →
      out.timestamp = ts →
      env.upload { out with timestamp := inc.timestamp } fa = .error f →
      (synchronize env ts fa).1 = .fail (env.lift f) ∧
      ∀ ev ∈ (synchronize env ts fa).2, ev.isFinish = false) := by
  refine ⟨?_, ?_, ?_⟩
  · intro f hf
    simp only [synchronize, hf]
    refine ⟨by trivial, ?_⟩
    intro ev hev
    rcases List.mem_singleton.mp hev with h
    subst h; exact ⟨rfl, rfl, rfl⟩
  · intro inc e hf ha
    simp only [synchronize, hf, ha]
    refine ⟨by trivial, ?_⟩
    intro ev hev
    rcases List.mem_cons.mp hev with h | h
    · subst h; exact ⟨rfl, rfl⟩
    · rcases List.mem_singleton.mp h with h2
      subst h2; exact ⟨rfl, rfl⟩
  · intro inc out f hf ha hts hu
    simp only [synchronize, hf, ha, if_pos hts, hu]
    refine ⟨by trivial, ?_⟩
    intro ev hev
    rcases List.mem_cons.mp hev with h | h
    · subst h; trivial
    rcases List.mem_cons.mp h with h2 | h2
    · subst h2; rfl
    · rcases List.mem_singleton.mp h2 with h3
      subst h3; trivial

/-- Claim C6: when the cycle reaches the upload step, the changeset it
submits is the store's outgoing changeset with only its timestamp field
overwritten by the remote timestamp obtained at fetch time: the records
are exactly what `apply_incoming` produced, and every upload in the trace
is that one submission. -/
theorem c6_retarget_only_timestamp {R F E : Type} (env : SyncEnv R F E)
    (ts : Nat) (fa : Bool) (inc : IncomingChangeset R) (out : OutgoingChangeset R)
    (hf : env.fetch = .ok inc) (ha : env.apply_incoming inc = .ok out)
    (hts : out.timestamp = ts) :
    SyncEvent.upload ⟨out.changes, inc.timestamp⟩ fa ∈ (synchronize env ts fa).2 ∧
    ∀ oc fa2, SyncEvent.upload oc fa2 ∈ (synchronize env ts fa).2 →
      oc = ⟨out.changes, inc.timestamp⟩ ∧ fa2 = fa := by
  simp only [synchronize, hf, ha, if_pos hts]
  cases hu : env.upload { out with timestamp := inc.timestamp } fa with
  | error e =>
    refine ⟨by simp, ?_⟩
    intro oc fa2 hmem
    simp only [List.mem_cons, List.not_mem_nil, or_false] at hmem
    rcases hmem with h | h | h
    · exact absurd h (by simp)
    · exact absurd h (by simp)
    · exact ⟨((SyncEvent.upload.injEq _ _ _ _).mp h).1,
             ((SyncEvent.upload.injEq _ _ _ _).mp h).2⟩
  | ok info =>
    cases hfin : env.sync_finished info.modified_timestamp info.successful_ids with
    | error e =>
      simp only [hfin]
      refine ⟨by simp, ?_⟩
      intro oc fa2 hmem
      simp only [List.mem_cons, List.not_mem_nil, or_false] at hmem
      rcases hmem with h | h | h | h
      · exact absurd h (by simp)
      · exact absurd h (by simp)
      · exact ⟨((SyncEvent.upload.injEq _ _ _ _).mp h).1,
               ((SyncEvent.upload.injEq _ _ _ _).mp h).2⟩
      · exact absurd h (by simp)
    | ok u =>
      simp only [hfin]
      refine ⟨by simp, ?_⟩
      intro oc fa2 hmem
      simp only [List.mem_cons, List.not_mem_nil, or_false] at hmem
      rcases hmem with h | h | h | h
      · exact absurd h (by simp)
      · exact absurd h (by simp)
      · exact ⟨((SyncEvent.upload.injEq _ _ _ _).mp h).1,
               ((SyncEvent.upload.injEq _ _ _ _).mp h).2⟩
      · exact absurd h (by simp)

/-- A concrete cycle for claim C6: the store echoes the input watermark 7;
the fetch-time remote timestamp is 5. -/
def envC6 : SyncEnv Nat Unit Unit :=
  ⟨.ok ⟨[], 5⟩, fun _ => .ok ⟨[1, 2], 7⟩, fun _ _ => .ok ⟨9, [], []⟩,
   fun _ _ => .ok (), fun _ => ()⟩

theorem c6_retarget_only_timestamp_witness :
    SyncEvent.upload (⟨[1, 2], 5⟩ : OutgoingChangeset Nat) false ∈
      (synchronize envC6 7 false).2 :=
  (c6_retarget_only_timestamp envC6 7 false ⟨[], 5⟩ ⟨[1, 2], 7⟩ rfl rfl rfl).1

/-! ## Claims about the key-bundle unwrap -/

theorem take_set_of_le {α : Type} (l : List α) (n m : Nat) (a : α) (h : m ≤ n) :
    (l.set n a).take m = l.take m := by
  induction l generalizing n m with
  | nil => simp
  | cons x xs ih =>
    cases m with
    | zero => simp
    | succ m =>
      cases n with
      | zero => omega
      | succ n =>
        simp only [List.set_cons_succ, List.take_succ_cons]
        rw [ih n m (by omega)]

theorem drop_set_of_le {α : Type} (l : List α) (n m : Nat) (a : α) (h : m ≤ n) :
    (l.set n a).drop m = (l.drop m).set (n - m) a := by
  induction l generalizing n m with
  | nil => simp
  | cons x xs ih =>
    cases m with
    | zero => simp
    | succ m =>
      cases n with
      | zero => omega
      | succ n =>
        simp only [List.set_cons_succ, List.drop_succ_cons]
        rw [ih n m (by omega)]
        simp [Nat.succ_sub_succ]

theorem xor_pow2_ne (b k : Nat) : b ^^^ (1 <<< k) ≠ b := by
  intro h
  have hm : (1 <<< k) ≠ 0 := by
    rw [Nat.shiftLeft_eq]
    positivity
  have h2 : b ^^^ (b ^^^ (1 <<< k)) = b ^^^ b := by rw [h]
  rw [Nat.xor_cancel_left, Nat.xor_self] at h2
  exact hm h2

/-- Unless the bundle is exactly 96 bytes, `keys` stops at the size check. -/
theorem keys_malformed (t d : List Nat) (h : d.length ≠ 3 * KEY_LENGTH) :
    keys t d = .error .malformedBundle := by
  simp only [keys]
  rw [if_pos h]

/-- When the bundle is 96 bytes but the tag differs from the HMAC of the
ciphertext, `keys` stops at the integrity check. -/
theorem keys_integrity_failed (t d : List Nat) (hlen : d.length = 96)
    (hne : hmacSha256 (keysHmacKey t) (d.take 64) ≠ (d.drop 64).take 32) :
    keys t d = .error .integrityCheckFailed := by
  simp only [keys, hmacNewVarkey]
  rw [if_neg (by simp [KEY_LENGTH, hlen]), if_pos (by simpa [keysHmacKey, KEY_LENGTH] using hne)]

/-- A successful `keys` forces the well-sized bundle and the passing
integrity check. -/
theorem keys_ok_inversion (t d w : List Nat) (h : keys t d = .ok w) :
    d.length = 96 ∧
    hmacSha256 (keysHmacKey t) (d.take 64) = (d.drop 64).take 32 := by
  by_cases hlen : d.length = 96
  · refine ⟨hlen, ?_⟩
    by_contra hc
    rw [keys_integrity_failed t d hlen hc] at h
    cases h
  · rw [keys_malformed t d (by simp [KEY_LENGTH]; omega)] at h
    cases h

/-- Claim C2: a bundle whose decoded length is anything but `3 * KEY_LENGTH`
(96) bytes is rejected with the malformed-bundle error, for every key-fetch
token and regardless of any MAC value — the size check precedes the
integrity check — and no `wrap_kb` is returned. -/
theorem c2_malformed_bundle_rejected (key_fetch_token data : List Nat)
    (h : data.length ≠ 96) :
    keys key_fetch_token data = .error .malformedBundle :=
  keys_malformed key_fetch_token data (by simp [KEY_LENGTH]; omega)

theorem c2_malformed_bundle_rejected_witness :
    keys [] [0, 1, 2] = .error .malformedBundle :=
  c2_malformed_bundle_rejected [] [0, 1, 2] (by decide)

/-- Flip bit `i` (0 ≤ i < 256) of the bundle's 32-byte tag: xor bit
`i % 8` into tag byte `i / 8`, which is bundle byte `64 + i / 8`. -/
def flipTagBit (data : List Nat) (i : Nat) : List Nat :=
  data.set (64 + i / 8) (data.getD (64 + i / 8) 0 ^^^ (1 <<< (i % 8)))

/-- Flipping any tag bit of a bundle `keys` accepts makes `keys` fail the
integrity check: the ciphertext and the derived keys are untouched, so the
HMAC is unchanged, while the tag now differs from it. -/
theorem keys_flip_tag (t d w : List Nat) (i : Nat)
    (hok : keys t d = .ok w) (hi : i < 256) :
    keys t (flipTagBit d i) = .error .integrityCheckFailed := by
  obtain ⟨hlen, heq⟩ := keys_ok_inversion t d w hok
  have hdiv : i / 8 < 32 := by omega
  have htaglen : (d.drop 64).length = 32 := by simp [hlen]
  apply keys_integrity_failed
  · simp [flipTagBit, hlen]
  · rw [flipTagBit, take_set_of_le _ _ _ _ (by omega),
        drop_set_of_le _ _ _ _ (by omega)]
    have hj64 : 64 + i / 8 - 64 = i / 8 := by omega
    rw [hj64]
    have hsetlen :
        ((d.drop 64).set (i / 8) (d.getD (64 + i / 8) 0 ^^^ (1 <<< (i % 8)))).length ≤ 32 := by
      simp [htaglen]
    rw [List.take_all_of_le hsetlen]
    rw [List.take_all_of_le (le_of_eq htaglen)] at heq
    rw [heq]
    intro hbad
    have hpt := congrArg (fun l => l.get? (i / 8)) hbad
    simp only at hpt
    rw [List.get?_set_eq_of_lt _ (by omega : i / 8 < (d.drop 64).length)] at hpt
    have hgd : d.getD (64 + i / 8) 0 = ((d.drop 64).get? (i / 8)).getD 0 := by
      show (d.get? (64 + i / 8)).getD 0 = ((d.drop 64).get? (i / 8)).getD 0
      rw [List.get?_drop]
    cases hq : (d.drop 64).get? (i / 8) with
    | none =>
      have : (d.drop 64).length ≤ i / 8 := List.get?_eq_none.mp hq
      omega
    | some b =>
      rw [hq] at hpt hgd
      have hb : b = b ^^^ (1 <<< (i % 8)) := by
        have := hpt
        rw [hgd] at this
        simpa using this
      exact xor_pow2_ne b (i % 8) hb.symm

/-- Claim C3: a well-sized (96-byte) bundle whose last 32 bytes differ from
HMAC-SHA256 of its first 64 bytes under the derived HMAC key makes `keys`
fail with the integrity-check error — a kind of its own, distinct from the
transport errors — returning no `wrap_kb`; and flipping any single bit of
the tag of a bundle `keys` accepts produces exactly this failure. -/
theorem c3_integrity_check_failure (key_fetch_token data : List Nat)
    (hlen : data.length = 96)
    (hne : hmacSha256 (keysHmacKey key_fetch_token) (data.take 64) ≠
      (data.drop 64).take 32) :
    keys key_fetch_token data = .error .integrityCheckFailed ∧
    ∀ d2 w i, keys key_fetch_token d2 = .ok w → i < 256 →
      keys key_fetch_token (flipTagBit d2 i) = .error .integrityCheckFailed :=
  ⟨keys_integrity_failed _ _ hlen hne,
   fun d2 w i hok hi => keys_flip_tag key_fetch_token d2 w i hok hi⟩

set_option maxRecDepth 100000 in
set_option maxHeartbeats 4000000 in
theorem c3_integrity_check_failure_witness :
    keys [] (List.replicate 96 0) = .error .integrityCheckFailed :=
  (c3_integrity_check_failure [] (List.replicate 96 0) (by decide) (by decide)).1

/-- Claim C4: on a 96-byte bundle that passes the integrity check, `keys`
returns exactly the specification's `wrap_kB`: bytes 32..64 of the
ciphertext xored with `xorKey`, where the key-request key is the last 32
bytes of the 96-byte HKDF-SHA256 stream derived from the key-fetch token
under `"identity.mozilla.com/picl/v1/keyFetchToken"` and `hmacKey`/`xorKey`
are bytes 0..32 and 32..96 of the 96-byte stream derived from the
key-request key under `"identity.mozilla.com/picl/v1/account/keys"`. -/
theorem c4_wrap_kb_formula (key_fetch_token data : List Nat)
    (hlen : data.length = 96)
    (heq : hmacSha256 (keysHmacKey key_fetch_token) (data.take 64) =
      (data.drop 64).take 32) :
    keys key_fetch_token data = .ok (wrapKbSpec key_fetch_token data) := by
  have hkw1 : kw "keyFetchToken" =
      utf8Bytes "identity.mozilla.com/picl/v1/keyFetchToken" := by decide
  have hkw2 : kw "account/keys" =
      utf8Bytes "identity.mozilla.com/picl/v1/account/keys" := by decide
  have heq2 := heq
  simp only [keysHmacKey, KEY_LENGTH] at heq2
  norm_num at heq2
  simp only [keys, hmacNewVarkey, xored_with, KEY_LENGTH]
  norm_num
  split_ifs with h1
  · have hA : List.take 32 (List.drop 64
        (derive_hkdf_sha256_key key_fetch_token HKDF_SALT (kw "keyFetchToken") 96)) =
        List.drop 64 (derive_hkdf_sha256_key key_fetch_token HKDF_SALT (kw "keyFetchToken") 96) :=
      List.take_all_of_le (by simp [derive_hkdf_sha256_key_length])
    rw [hA]
    have hB : List.take 64 (List.drop 32
        (derive_hkdf_sha256_key
          (List.drop 64 (derive_hkdf_sha256_key key_fetch_token HKDF_SALT (kw "keyFetchToken") 96))
          HKDF_SALT (kw "account/keys") 96)) =
        List.drop 32
        (derive_hkdf_sha256_key
          (List.drop 64 (derive_hkdf_sha256_key key_fetch_token HKDF_SALT (kw "keyFetchToken") 96))
          HKDF_SALT (kw "account/keys") 96) :=
      List.take_all_of_le (by simp [derive_hkdf_sha256_key_length])
    rw [hB]
    simp only [wrapKbSpec]
    rw [← hkw1, ← hkw2]
  · exact absurd (by simp [hlen, derive_hkdf_sha256_key_length]) h1

/-- A tag making the all-zero 64-byte ciphertext a valid bundle for the
empty key-fetch token: HMAC-SHA256 of the ciphertext under the derived
HMAC key. -/
def validTagC4 : List Nat :=
  [98, 106, 226, 25, 246, 113, 29, 31, 227, 174, 71, 116, 215, 35, 243, 251,
   65, 192, 56, 44, 162, 66, 193, 8, 254, 8, 134, 190, 62, 254, 36, 114]

set_option maxRecDepth 100000 in
set_option maxHeartbeats 4000000 in
theorem c4_wrap_kb_formula_witness :
    keys [] (List.replicate 64 0 ++ validTagC4) =
      .ok (wrapKbSpec [] (List.replicate 64 0 ++ validTagC4)) :=
  c4_wrap_kb_formula [] (List.replicate 64 0 ++ validTagC4) (by decide) (by decide)

/-! ## Claim about the OAuth audience -/

/-- Claim C7: for every OAuth base URL `get_oauth_audience` accepts (one
with a host), the audience is `scheme://host` when the URL writes no port
or writes the scheme's default port, and `scheme://host:port` when it
writes a non-default port. -/
theorem c7_oauth_audience (u : ParsedUrl) (host : String)
    (hh : u.hostStr = some host) :
    ((u.writtenPort = none ∨ u.writtenPort = defaultPort u.scheme) →
      get_oauth_audience u = .ok (u.scheme ++ "://" ++ host)) ∧
    (∀ p, u.writtenPort = some p → defaultPort u.scheme ≠ some p →
      get_oauth_audience u = .ok (u.scheme ++ "://" ++ host ++ ":" ++ Nat.repr p)) := by
  constructor
  · intro hp
    rcases hp with hp | hp
    · simp [get_oauth_audience, ParsedUrl.port, hh, hp]
    · cases hq : u.writtenPort with
      | none => simp [get_oauth_audience, ParsedUrl.port, hh, hq]
      | some p =>
        rw [hq] at hp
        simp [get_oauth_audience, ParsedUrl.port, hh, hq, ← hp]
  · intro p hp hnd
    simp [get_oauth_audience, ParsedUrl.port, hh, hp, hnd]

/-- A URL writing the default https port 443: the audience omits it. -/
theorem c7_oauth_audience_witness :
    get_oauth_audience ⟨"https", some "oauth.example.com", some 443⟩ =
      .ok ("https" ++ "://" ++ "oauth.example.com") :=
  (c7_oauth_audience ⟨"https", some "oauth.example.com", some 443⟩
    "oauth.example.com" rfl).1 (Or.inr (by decide))

/-! ## Claim about the key-derivation bound -/

/-- Claim C8: the checked key derivation fails exactly when the requested
length exceeds the HKDF-SHA256 safe output bound of `255 * 32` bytes, the
failure is a returned error, and every accepted request yields exactly
`len` bytes. -/
theorem c8_derive_key_bound (ikm xts info : List Nat) (len : Nat) :
    (derive_key_checked ikm xts info len = .error .invalidLength ↔ 255 * 32 < len) ∧
    (∀ out, derive_key_checked ikm xts info len = .ok out → out.length = len) := by
  constructor
  · constructor
    · intro h
      by_contra hlt
      simp [derive_key_checked, Nat.le_of_not_lt hlt] at h
    · intro h
      simp [derive_key_checked, Nat.not_le_of_lt h]
  · intro out h
    by_cases hle : len ≤ 255 * 32
    · simp only [derive_key_checked, if_pos hle] at h
      cases h
      exact derive_hkdf_sha256_key_length _ _ _ _
    · simp [derive_key_checked, hle] at h

/-! ## Claim about context namespacing -/

/-- Claim C9: the namespacing of key-derivation contexts is injective over
purposes — distinct purpose strings yield distinct context byte strings,
since both carry the same `"identity.mozilla.com/picl/v1/"` prefix and
UTF-8 encoding is injective. -/
theorem c9_kw_injective (p1 p2 : String) (hne : p1 ≠ p2) : kw p1 ≠ kw p2 := by
  intro h
  apply hne
  have hs := utf8Bytes_inj _ _ h
  have hd : ("identity.mozilla.com/picl/v1/" ++ p1).data =
      ("identity.mozilla.com/picl/v1/" ++ p2).data := by rw [hs]
  simp only [String.data_append] at hd
  have htail := List.append_cancel_left hd
  cases p1; cases p2; exact congrArg String.mk htail

theorem c9_kw_injective_witness : kw "oldsync" ≠ kw "sessionToken" :=
  c9_kw_injective "oldsync" "sessionToken" (by decide)

/-! ## Claim about the remote-error envelope -/

/-- Claim C10: on every non-success response whose body is valid JSON, the
envelope decode itself never fails — the result is always the structured
remote error, with `code`/`errno` falling back to 0 and `error`/`message`/
`info` falling back to the empty string whenever the member is absent or
not of the expected type. -/
theorem c10_remote_error_envelope (st : Nat) (j : Json)
    (h : statusIsSuccess st = false) :
    make_request_failure ⟨st, some j⟩ = some (.remoteError
      ((j.getField "code").as_u64.getD 0)
      ((j.getField "errno").as_u64.getD 0)
      ((j.getField "error").as_str.getD "")
      ((j.getField "message").as_str.getD "")
      ((j.getField "info").as_str.getD "")) ∧
    ((j.getField "code").as_u64 = none → (j.getField "code").as_u64.getD 0 = 0) ∧
    ((j.getField "errno").as_u64 = none → (j.getField "errno").as_u64.getD 0 = 0) ∧
    ((j.getField "error").as_str = none → (j.getField "error").as_str.getD "" = "") ∧
    ((j.getField "message").as_str = none → (j.getField "message").as_str.getD "" = "") ∧
    ((j.getField "info").as_str = none → (j.getField "info").as_str.getD "" = "") := by
  refine ⟨?_, ?_, ?_, ?_, ?_, ?_⟩
  · simp [make_request_failure, h]
  all_goals intro h2; rw [h2]; rfl

/-- A 400 response whose body has a wrong-typed `code`, a valid `errno`
and no other members decodes to the envelope with defaults. -/
def jC10 : Json := Json.obj [("code", Json.str "nope"), ("errno", Json.num 107)]

theorem c10_remote_error_envelope_witness :
    make_request_failure ⟨400, some jC10⟩ =
      some (.remoteError 0 107 "" "" "") :=
  (c10_remote_error_envelope 400 jC10 rfl).1
